import Mathlib

/-!
Verification development for the universal MCP gateway
(session/transport lifecycle manager, cross-session tool catalog and
router, and the agentic tool-calling loop).

The definitions below are a shallow embedding of the TypeScript source:

* `src/services/McpClientManager.ts` — `McpClientManager` (session
  registry, `connectWithTransport`, `disconnect`, `getAllTools`,
  `findSessionForTool`, `callTool`, `callToolAcrossSessions`);
* `src/controllers/chatController.ts` — `chatAggregated` (tool
  deduplication and the bounded agentic loop);
* `src/services/BedrockService.ts` — `formatToolResult`;
* `src/controllers/presetController.ts` — `connectAllPresets`;
* `src/services/PresetManager.ts` — `autoConnectPresets`.

External collaborators (the protocol SDK client, the Bedrock completion
service, the actual tool-provider processes) are modelled as oracle
parameters: a handshake outcome, a discovery outcome, a provider-call
outcome, and completion-service reply functions.  JavaScript `Map`
objects are modelled as association lists in insertion order, which is
exactly the iteration order a JS `Map` guarantees.
-/

/-- Model of a JavaScript runtime value (the `unknown` payloads the
gateway passes around: tool-result content, error details).  Numbers are
modelled as integers; floating-point formatting is irrelevant to every
property proved below. -/
inductive JsValue where
  | null : JsValue
  | bool (b : Bool) : JsValue
  | num (n : Int) : JsValue
  | str (s : String) : JsValue
  | arr (items : List JsValue) : JsValue
  | obj (fields : List (String × JsValue)) : JsValue

/-- Hexadecimal digit, as used by `JSON.stringify` for control-character
escapes. -/
def hexDigit (n : Nat) : Char :=
  if n < 10 then Char.ofNat (48 + n) else Char.ofNat (87 + n)

/-- Four-digit hexadecimal rendering of a code point. -/
def hex4 (n : Nat) : String :=
  String.mk [hexDigit (n / 4096 % 16), hexDigit (n / 256 % 16),
             hexDigit (n / 16 % 16), hexDigit (n % 16)]

/-- Escaping of one character inside a JSON string literal, following
`JSON.stringify`. -/
def escapeJsonChar (c : Char) : String :=
  if c = Char.ofNat 34 then "\\\""
  else if c = Char.ofNat 92 then "\\\\"
  else if c = Char.ofNat 10 then "\\n"
  else if c = Char.ofNat 13 then "\\r"
  else if c = Char.ofNat 9 then "\\t"
  else if c = Char.ofNat 8 then "\\b"
  else if c = Char.ofNat 12 then "\\f"
  else if c.toNat < 32 then "\\u" ++ hex4 c.toNat
  else String.singleton c

/-- JSON string literal (quoted, escaped), following `JSON.stringify`. -/
def quoteJson (s : String) : String :=
  "\"" ++ String.join (s.toList.map escapeJsonChar) ++ "\""

mutual

/-- Compact JSON rendering of a value, as produced by
`JSON.stringify(v)`. -/
def jsonStringify : JsValue → String
  | .null => "null"
  | .bool b => cond b "true" "false"
  | .num n => toString n
  | .str s => quoteJson s
  | .arr items => "[" ++ jsonStringifyArr items ++ "]"
  | .obj fields => "\x7b" ++ jsonStringifyObj fields ++ "\x7d"

/-- Comma-joined compact rendering of array elements. -/
def jsonStringifyArr : List JsValue → String
  | [] => ""
  | [x] => jsonStringify x
  | x :: xs => jsonStringify x ++ "," ++ jsonStringifyArr xs

/-- Comma-joined compact rendering of object fields. -/
def jsonStringifyObj : List (String × JsValue) → String
  | [] => ""
  | [kv] => quoteJson kv.1 ++ ":" ++ jsonStringify kv.2
  | kv :: fs => quoteJson kv.1 ++ ":" ++ jsonStringify kv.2 ++ "," ++ jsonStringifyObj fs

end

/-- Indentation of `n` spaces, for the pretty JSON printer. -/
def indentSpaces (n : Nat) : String :=
  String.mk (List.replicate n (Char.ofNat 32))

mutual

/-- Pretty JSON rendering with two-space indentation, as produced by
`JSON.stringify(v, null, 2)`; `ind` is the current indentation depth in
spaces. -/
def jsonStringifyPretty (ind : Nat) : JsValue → String
  | .null => "null"
  | .bool b => cond b "true" "false"
  | .num n => toString n
  | .str s => quoteJson s
  | .arr [] => "[]"
  | .arr (x :: xs) =>
      "[\n" ++ jsonStringifyPrettyArr (ind + 2) x xs ++ "\n" ++ indentSpaces ind ++ "]"
  | .obj [] => "\x7b\x7d"
  | .obj (kv :: fs) =>
      "\x7b\n" ++ jsonStringifyPrettyObj (ind + 2) kv fs ++ "\n" ++ indentSpaces ind ++ "\x7d"
termination_by v => sizeOf v

/-- Pretty rendering of a nonempty run of array elements, one per line. -/
def jsonStringifyPrettyArr (ind : Nat) : JsValue → List JsValue → String
  | x, [] => indentSpaces ind ++ jsonStringifyPretty ind x
  | x, y :: ys =>
      indentSpaces ind ++ jsonStringifyPretty ind x ++ ",\n" ++ jsonStringifyPrettyArr ind y ys
termination_by x xs => sizeOf x + sizeOf xs

/-- Pretty rendering of a nonempty run of object fields, one per line. -/
def jsonStringifyPrettyObj (ind : Nat) : String × JsValue → List (String × JsValue) → String
  | (k, v), [] => indentSpaces ind ++ quoteJson k ++ ": " ++ jsonStringifyPretty ind v
  | (k, v), f :: fs =>
      indentSpaces ind ++ quoteJson k ++ ": " ++ jsonStringifyPretty ind v ++ ",\n" ++
        jsonStringifyPrettyObj ind f fs
termination_by kv fs => sizeOf kv + sizeOf fs

end

mutual

/-- JavaScript `String(v)` coercion, as applied by
`Array.prototype.join` to non-string elements. -/
def jsToString : JsValue → String
  | .null => "null"
  | .bool b => cond b "true" "false"
  | .num n => toString n
  | .str s => s
  | .arr items => jsToStringArr items
  | .obj _ => "[object Object]"

/-- Coercion of an array via `Array.prototype.toString`, i.e.
`join(",")` where `null` elements contribute the empty string. -/
def jsToStringArr : List JsValue → String
  | [] => ""
  | [x] => jsToStringElem x
  | x :: xs => jsToStringElem x ++ "," ++ jsToStringArr xs

/-- One array element under `Array.prototype.join`: `null` becomes
empty, everything else is `String()`-coerced (the non-null arms repeat
`jsToString` literally so the mutual recursion stays structural). -/
def jsToStringElem : JsValue → String
  | .null => ""
  | .bool b => cond b "true" "false"
  | .num n => toString n
  | .str s => s
  | .arr items => jsToStringArr items
  | .obj _ => "[object Object]"

end

/-- Transport type identifier (`TransportType` in
`McpClientManager.ts`). -/
inductive TransportType where
  | sse : TransportType
  | stdio : TransportType
  | streamableHttp : TransportType
deriving DecidableEq

/-- Session status (`SessionStatus` in `McpClientManager.ts`). -/
inductive SessionStatus where
  | connecting : SessionStatus
  | connected : SessionStatus
  | disconnected : SessionStatus
  | error : SessionStatus
deriving DecidableEq

/-- Rendering of a status, as interpolated into error messages. -/
def SessionStatus.render : SessionStatus → String
  | .connecting => "connecting"
  | .connected => "connected"
  | .disconnected => "disconnected"
  | .error => "error"

/-- Tool descriptor (the protocol SDK `Tool`): a name plus opaque
metadata. -/
structure Tool where
  name : String
  description : String
  inputSchema : JsValue

/-- Active session with transport metadata (`ActiveSession` in
`McpClientManager.ts`).  The opaque `client`/`transport` handles carry
no registry-observable state and are represented by the oracle
parameters of the operations instead. -/
structure ActiveSession where
  sessionId : String
  serverUrl : String
  transportType : TransportType
  tools : List Tool
  createdAt : Nat
  status : SessionStatus
  pid : Option Nat

/-- Structured detail attached to an `McpError`: either the provider
payload of an error-flagged result, or the message of an underlying
exception. -/
inductive ErrorDetail where
  | providerContent (content : JsValue) : ErrorDetail
  | exceptionMessage (message : String) : ErrorDetail

/-- Custom error class for MCP-related errors (`McpError` in
`McpClientManager.ts`). -/
structure McpError where
  message : String
  code : String
  statusCode : Nat
  details : Option ErrorDetail

/-- Result type for tool execution (`ToolResult` in
`McpClientManager.ts`). -/
structure ToolResult where
  content : JsValue
  isError : Bool

/-- The session registry: `McpClientManager.sessions`, a JS `Map`
modelled as an association list in insertion order (a JS `Map` iterates
in insertion order). -/
abbrev Registry := List ActiveSession

/-- Lookup by session id (`Map.get`). -/
def sessionsGet : Registry → String → Option ActiveSession
  | [], _ => none
  | s :: rest, sessionId =>
      if s.sessionId = sessionId then some s else sessionsGet rest sessionId

/-- Insert-or-replace (`Map.set`): replaces an existing entry in place,
otherwise appends at the end. -/
def sessionsSet : Registry → ActiveSession → Registry
  | [], s => [s]
  | t :: rest, s =>
      if t.sessionId = s.sessionId then s :: rest else t :: sessionsSet rest s

/-- Removal by session id (`Map.delete`). -/
def sessionsDelete : Registry → String → Registry
  | [], _ => []
  | t :: rest, sessionId =>
      if t.sessionId = sessionId then rest else t :: sessionsDelete rest sessionId

/-- Outcome of the handshake performed by `client.connect(transport)`;
an oracle parameter standing for the external protocol library. -/
inductive HandshakeOutcome where
  | ok : HandshakeOutcome
  | fail (message : String) : HandshakeOutcome

/-- Outcome of `client.listTools()`; an oracle parameter standing for
the tool provider. -/
inductive DiscoveryOutcome where
  | ok (tools : List Tool) : DiscoveryOutcome
  | fail (message : String) : DiscoveryOutcome

/-- Outcome of `client.callTool(...)`: either a completed call carrying
`content` and an `isError` flag, or a transport-level failure. -/
inductive ProviderOutcome where
  | result (content : JsValue) (isError : Bool) : ProviderOutcome
  | transportFail (message : String) : ProviderOutcome

/-- The `SESSION_NOT_FOUND` error as constructed throughout
`McpClientManager.ts`. -/
def sessionNotFoundError (sessionId : String) : McpError :=
  ⟨"Session " ++ sessionId ++ " not found", "SESSION_NOT_FOUND", 404, none⟩

/-- The `SESSION_NOT_CONNECTED` error of `getTools`/`callTool`. -/
def sessionNotConnectedError (sessionId : String) (status : SessionStatus) : McpError :=
  ⟨"Session " ++ sessionId ++ " is not connected (status: " ++ status.render ++ ")",
   "SESSION_NOT_CONNECTED", 400, none⟩

/-- The `TOOL_NOT_FOUND` error of `callTool`, listing the session\x27s
cached tool names. -/
def toolNotFoundInSessionError (toolName : String) (tools : List Tool) : McpError :=
  ⟨"Tool \x27" ++ toolName ++ "\x27 not found. Available tools: " ++
     String.intercalate ", " (tools.map Tool.name),
   "TOOL_NOT_FOUND", 404, none⟩

/-- Embedding of `McpClientManager.discoverTools`: look the session up,
then ask the provider for its tool list; on success the cached list is
replaced wholesale, on failure a `TOOL_DISCOVERY_FAILED` error is
raised and the registry is untouched. -/
def discoverTools (sessions : Registry) (sessionId : String) (discovery : DiscoveryOutcome) :
    Registry × Except McpError (List Tool) :=
  match sessionsGet sessions sessionId with
  | none => (sessions, .error (sessionNotFoundError sessionId))
  | some session =>
      match discovery with
      | .ok tools => (sessionsSet sessions { session with tools := tools }, .ok tools)
      | .fail msg =>
          (sessions,
           .error ⟨"Failed to list tools: " ++ msg, "TOOL_DISCOVERY_FAILED", 500,
                   some (.exceptionMessage msg)⟩)

/-- Embedding of `McpClientManager.connectWithTransport`.  Returns the
list of registry snapshots after each registry mutation (the states an
observer could see), the final registry, and the result the caller
receives.  The source inserts a `connecting` row, awaits the handshake,
sets the status to `connected`, runs `discoverTools`, and on any failure
marks the row `error`, closes the transport best-effort, deletes the
row, and rethrows (wrapping non-`McpError` causes as
`CONNECTION_FAILED`). -/
def connectWithTransport (sessions : Registry) (sessionId serverUrl : String)
    (transportType : TransportType) (pid : Option Nat) (createdAt : Nat)
    (handshake : HandshakeOutcome) (discovery : DiscoveryOutcome) :
    List Registry × Registry × Except McpError (String × List Tool) :=
  let session : ActiveSession :=
    ⟨sessionId, serverUrl, transportType, [], createdAt, .connecting, pid⟩
  let r1 := sessionsSet sessions session
  match handshake with
  | .fail msg =>
      let r2 := sessionsSet r1 { session with status := .error }
      let r3 := sessionsDelete r2 sessionId
      ([r1, r2, r3], r3,
       .error ⟨"Failed to connect to MCP server: " ++ msg, "CONNECTION_FAILED", 503,
               some (.exceptionMessage msg)⟩)
  | .ok =>
      let connectedSession := { session with status := .connected }
      let r2 := sessionsSet r1 connectedSession
      match discoverTools r2 sessionId discovery with
      | (r3, .ok tools) => ([r1, r2, r3], r3, .ok (sessionId, tools))
      | (r3, .error e) =>
          let r4 := sessionsSet r3 { connectedSession with status := .error }
          let r5 := sessionsDelete r4 sessionId
          ([r1, r2, r3, r4, r5], r5, .error e)

/-- Embedding of `McpClientManager.disconnect`: unknown ids raise
`SESSION_NOT_FOUND`; otherwise the transport is closed (on success the
status is set to `disconnected`, a failed close is only logged) and the
row is deleted in the `finally` block either way. -/
def disconnect (sessions : Registry) (sessionId : String) (closeSucceeds : Bool) :
    Registry × Except McpError Unit :=
  match sessionsGet sessions sessionId with
  | none => (sessions, .error (sessionNotFoundError sessionId))
  | some session =>
      let afterClose :=
        if closeSucceeds then sessionsSet sessions { session with status := .disconnected }
        else sessions
      (sessionsDelete afterClose sessionId, .ok ())

/-- Aggregated tool entry produced by `getAllTools`: a tool annotated
with `_sessionId`, `_serverUrl` and `_transportType`. -/
structure AggregatedTool where
  tool : Tool
  sessionId : String
  serverUrl : String
  transportType : TransportType

/-- Embedding of `McpClientManager.getAllTools`: for every `connected`
session, in registry iteration order, emit its cached tools tagged with
the session metadata. -/
def getAllTools : Registry → List AggregatedTool
  | [] => []
  | session :: rest =>
      (if session.status = .connected then
        session.tools.map (fun t =>
          ⟨t, session.sessionId, session.serverUrl, session.transportType⟩)
      else []) ++ getAllTools rest

/-- Embedding of `McpClientManager.findSessionForTool`: first
`connected` session whose cached tools contain the name. -/
def findSessionForTool : Registry → String → Option String
  | [], _ => none
  | session :: rest, toolName =>
      if session.status = .connected ∧ ∃ t ∈ session.tools, t.name = toolName then
        some session.sessionId
      else findSessionForTool rest toolName

/-- Embedding of `McpClientManager.callTool`: session lookup, status
check, fail-fast tool-existence check against the session\x27s cached
tools, then the provider call; an error-flagged provider result raises
`TOOL_EXECUTION_ERROR` carrying the provider content, a transport
failure raises `TOOL_EXECUTION_FAILED` carrying the exception. -/
def callTool (sessions : Registry) (sessionId toolName : String) (args : JsValue)
    (provider : String → String → JsValue → ProviderOutcome) : Except McpError ToolResult :=
  match sessionsGet sessions sessionId with
  | none => .error (sessionNotFoundError sessionId)
  | some session =>
      if session.status ≠ .connected then
        .error (sessionNotConnectedError sessionId session.status)
      else
        match session.tools.find? (fun t => t.name == toolName) with
        | none => .error (toolNotFoundInSessionError toolName session.tools)
        | some _ =>
            match provider sessionId toolName args with
            | .transportFail msg =>
                .error ⟨"Failed to execute tool \x27" ++ toolName ++ "\x27: " ++ msg,
                        "TOOL_EXECUTION_FAILED", 500, some (.exceptionMessage msg)⟩
            | .result content isErr =>
                if isErr then
                  .error ⟨"Tool execution returned an error", "TOOL_EXECUTION_ERROR", 400,
                          some (.providerContent content)⟩
                else .ok ⟨content, isErr⟩

/-- The routing `TOOL_NOT_FOUND` error of `callToolAcrossSessions`,
listing the tool names of every connected session. -/
def toolNotFoundAcrossSessionsError (toolName : String) (sessions : Registry) : McpError :=
  ⟨"Tool \x27" ++ toolName ++ "\x27 not found in any connected session. Available tools: " ++
     String.intercalate ", " ((getAllTools sessions).map (fun t => t.tool.name)),
   "TOOL_NOT_FOUND", 404, none⟩

/-- Embedding of `McpClientManager.callToolAcrossSessions`: resolve the
owning session via `findSessionForTool`, else raise the routing
not-found error; on a hit delegate to the session-scoped `callTool`. -/
def callToolAcrossSessions (sessions : Registry) (toolName : String) (args : JsValue)
    (provider : String → String → JsValue → ProviderOutcome) : Except McpError ToolResult :=
  match findSessionForTool sessions toolName with
  | none => .error (toolNotFoundAcrossSessionsError toolName sessions)
  | some sessionId => callTool sessions sessionId toolName args provider

/-- LLM-facing tool entry after `chatAggregated` strips the session
metadata: the destructuring `({ _sessionId, _serverUrl, ...tool }) =>
tool` removes exactly those two annotations (the transport annotation
stays in the spread). -/
structure LlmTool where
  tool : Tool
  transportType : TransportType

/-- Embedding of the dedup filter in `chatAggregated`: a `seen` set of
names, keeping the first occurrence of each name and dropping later
ones. -/
def dedupToolsByName (seen : List String) : List AggregatedTool → List AggregatedTool
  | [] => []
  | t :: ts =>
      if t.tool.name ∈ seen then dedupToolsByName seen ts
      else t :: dedupToolsByName (t.tool.name :: seen) ts

/-- The deduplicated, stripped tool list `chatAggregated` hands to the
Completion Service (`toolsForLlm` in `chatController.ts`). -/
def toolsForLlm (sessions : Registry) : List LlmTool :=
  (dedupToolsByName [] (getAllTools sessions)).map (fun t => ⟨t.tool, t.transportType⟩)

/-- Tool call requested by the Completion Service (`ToolCall` in
`BedrockService.ts`). -/
structure ToolCall where
  toolUseId : String
  toolName : String
  arguments : JsValue

/-- Tool outcome fed back to the Completion Service (`ToolResult` in
`BedrockService.ts`; renamed here because the manager declares its own
`ToolResult`). -/
structure LlmToolResult where
  toolUseId : String
  result : JsValue
  isError : Bool

/-- Reply of the Completion Service (`LLMResponse` in
`BedrockService.ts`); an absent `toolCalls` field is the empty list. -/
structure LlmResponse where
  message : String
  toolCalls : List ToolCall

/-- Embedding of the per-batch `for` loop in `chatAggregated`: each
requested call is attempted through `callToolAcrossSessions` (absorbed
into the `exec` oracle); a success is recorded as its content, a
failure as the error message flagged `isError`, both keyed by the
call\x27s `toolUseId`. -/
def executeBatch (exec : ToolCall → Except McpError JsValue) (calls : List ToolCall) :
    List LlmToolResult :=
  calls.map (fun tc =>
    match exec tc with
    | .ok content => ⟨tc.toolUseId, content, false⟩
    | .error e => ⟨tc.toolUseId, .str e.message, true⟩)

/-- Safety limit of the agentic loop (`MAX_TOOL_ITERATIONS` in
`chatAggregated`). -/
def MAX_TOOL_ITERATIONS : Nat := 10

/-- Embedding of the `while` loop of `chatAggregated`.  `cont` is
`bedrockService.continueWithToolResults` specialised to the fixed
message/history/tools arguments; `fuel` is `MAX_TOOL_ITERATIONS -
iterations`, so `fuel = 0` is exactly the loop guard `iterations <
MAX_TOOL_ITERATIONS` failing.  Returns the final reply together with
the number of executed iterations. -/
def chatLoop (cont : List ToolCall → List LlmToolResult → LlmResponse)
    (exec : ToolCall → Except McpError JsValue)
    (resp : LlmResponse) (allToolCalls : List ToolCall)
    (allToolResults : List LlmToolResult) (iterations : Nat) :
    Nat → LlmResponse × Nat
  | 0 => (resp, iterations)
  | fuel + 1 =>
      if resp.toolCalls.isEmpty then (resp, iterations)
      else
        let toolResults := executeBatch exec resp.toolCalls
        let newAllToolCalls := allToolCalls ++ resp.toolCalls
        let newAllToolResults := allToolResults ++ toolResults
        chatLoop cont exec (cont newAllToolCalls newAllToolResults)
          newAllToolCalls newAllToolResults (iterations + 1) fuel

/-- Embedding of `chatAggregated` from the first Completion Service
round onwards: `initial` is the reply of the opening
`bedrockService.chat` call; the loop then runs with empty accumulators
and the iteration counter at zero. -/
def chatAggregated (cont : List ToolCall → List LlmToolResult → LlmResponse)
    (exec : ToolCall → Except McpError JsValue) (initial : LlmResponse) :
    LlmResponse × Nat :=
  chatLoop cont exec initial [] [] 0 MAX_TOOL_ITERATIONS

/-- Embedding of one item of the array branch of `formatToolResult` in
`BedrockService.ts`: the `.map` callback returns the raw `text`
property for a non-null object carrying one, and `JSON.stringify(item)`
otherwise; the surrounding `.join("\n")` then coerces each element, so
a `null` text value contributes the empty string and any other
non-string text value is `String()`-coerced — which is exactly
`jsToStringElem`. -/
def formatToolResultItem (item : JsValue) : String :=
  match item with
  | .obj fields =>
      match fields.find? (fun kv => kv.1 == "text") with
      | some kv => jsToStringElem kv.2
      | none => jsonStringify item
  | _ => jsonStringify item

/-- Embedding of `formatToolResult` in `BedrockService.ts`: arrays are
flattened to newline-joined text, bare strings pass through, everything
else is pretty-printed JSON (`JSON.stringify(result, null, 2)`). -/
def formatToolResult (result : JsValue) : String :=
  match result with
  | .arr items => String.intercalate "\n" (items.map formatToolResultItem)
  | .str s => s
  | v => jsonStringifyPretty 0 v

/-- The `text` field of a provider content block, when the block is an
object carrying one. -/
def textFieldOf : JsValue → Option JsValue
  | .obj fields => (fields.find? (fun kv => kv.1 == "text")).map (fun kv => kv.2)
  | _ => none

/-- Tool-result normalization as worded by the spec, for comparison
with the source-derived `formatToolResult`: an array of provider
content blocks is flattened to newline-joined text, extracting a `text`
field when present and falling back to a JSON rendering otherwise; a
bare string passes through unchanged; anything else is JSON-rendered.
The extracted field is surfaced the way the newline join surfaces an
element (`jsToStringElem`: a `null` text value becomes the empty
string, other non-strings are `String()`-coerced). -/
def formatToolResultSpec (result : JsValue) : String :=
  match result with
  | .arr blocks =>
      String.intercalate "\n" (blocks.map (fun block =>
        match textFieldOf block with
        | some t => jsToStringElem t
        | none => jsonStringify block))
  | .str s => s
  | v => jsonStringifyPretty 0 v

/-- Transport configuration of a preset (`McpTransportConfig` in
`config/index.ts`). -/
inductive McpTransportConfig where
  | sse (url : String) : McpTransportConfig
  | stdio (command : String) (args : List String) : McpTransportConfig
  | streamableHttp (url : String) : McpTransportConfig

/-- Preset definition (`McpPreset` in `config/index.ts`). -/
structure McpPreset where
  id : String
  name : String
  description : String
  transport : McpTransportConfig
  autoConnect : Bool
  tags : List String

/-- Embedding of `connectAllPresets` in `presetController.ts`: it reads
`presetManager.getPresets()` — the **unfiltered** preset list — fires
`connectPreset` on every one of them (`Promise.allSettled`, so no
failure aborts the rest), and partitions the preset ids into
`connected`/`failed` by settlement status.  `connectSucceeds` is the
oracle for whether a given preset\x27s `connectPreset` call fulfills. -/
def connectAllPresets (presets : List McpPreset) (connectSucceeds : String → Bool) :
    List String × List String :=
  presets.foldl (fun acc preset =>
    if connectSucceeds preset.id then (acc.1 ++ [preset.id], acc.2)
    else (acc.1, acc.2 ++ [preset.id])) ([], [])

/-- The preset ids `connectAllPresets` attempts to connect: the full
configured list, with no `autoConnect` filter. -/
def attemptedPresetIds (presets : List McpPreset) : List String :=
  presets.map (fun p => p.id)

/-- Embedding of `PresetManager.autoConnectPresets`: when the feature
flag is on it filters the presets to those flagged `autoConnect`,
attempts each independently (`Promise.allSettled`), and **returns
nothing** — it only logs a connected/failed count, modelled here as the
counter pair, never a partition of ids. -/
def autoConnectPresets (featureEnabled : Bool) (presets : List McpPreset)
    (connectSucceeds : String → Bool) : Nat × Nat :=
  if featureEnabled then
    let flagged := presets.filter (fun p => p.autoConnect)
    ((flagged.filter (fun p => connectSucceeds p.id)).length,
     (flagged.filter (fun p => !connectSucceeds p.id)).length)
  else (0, 0)

theorem sessionsGet_eq_none_iff (r : Registry) (sid : String) :
    sessionsGet r sid = none ↔ ∀ s ∈ r, s.sessionId ≠ sid := by
  induction r with
  | nil => simp [sessionsGet]
  | cons t rest ih =>
      simp only [sessionsGet]
      by_cases h : t.sessionId = sid
      · simp [h]
      · simp [h, ih]

theorem sessionsSet_of_fresh (r : Registry) (s : ActiveSession)
    (h : ∀ t ∈ r, t.sessionId ≠ s.sessionId) : sessionsSet r s = r ++ [s] := by
  induction r with
  | nil => rfl
  | cons t rest ih =>
      simp only [sessionsSet]
      rw [if_neg (h t (by simp))]
      simp [ih (fun u hu => h u (by simp [hu]))]

theorem sessionsSet_append_of_fresh (r : Registry) (s s2 : ActiveSession)
    (hid : s2.sessionId = s.sessionId)
    (h : ∀ t ∈ r, t.sessionId ≠ s.sessionId) :
    sessionsSet (r ++ [s]) s2 = r ++ [s2] := by
  induction r with
  | nil => simp [sessionsSet, hid.symm]
  | cons t rest ih =>
      simp only [List.cons_append, sessionsSet]
      rw [if_neg (by rw [hid]; exact h t (by simp))]
      simp [ih (fun u hu => h u (by simp [hu]))]

theorem sessionsDelete_append_of_fresh (r : Registry) (s : ActiveSession) (sid : String)
    (hs : s.sessionId = sid) (h : ∀ t ∈ r, t.sessionId ≠ sid) :
    sessionsDelete (r ++ [s]) sid = r := by
  induction r with
  | nil => simp [sessionsDelete, hs]
  | cons t rest ih =>
      simp only [List.cons_append, sessionsDelete]
      rw [if_neg (h t (by simp))]
      simp [ih (fun u hu => h u (by simp [hu]))]

theorem sessionsGet_append_of_fresh (r : Registry) (s : ActiveSession) (sid : String)
    (hs : s.sessionId = sid) (h : ∀ t ∈ r, t.sessionId ≠ sid) :
    sessionsGet (r ++ [s]) sid = some s := by
  induction r with
  | nil => simp [sessionsGet, hs]
  | cons t rest ih =>
      simp only [List.cons_append, sessionsGet]
      rw [if_neg (h t (by simp))]
      exact ih (fun u hu => h u (by simp [hu]))

/-- C1: a connect attempt (any transport kind) that fails at the
handshake or at tool discovery leaves the Session Registry exactly as
it was before the attempt — in particular it holds no row for the
attempt\x27s session id — and the caller receives a typed `McpError`
connection failure (`CONNECTION_FAILED` for a handshake failure,
`TOOL_DISCOVERY_FAILED` for a discovery failure). -/
theorem connect_failure_leaves_registry_unchanged
    (sessions : Registry) (sessionId serverUrl : String) (tt : TransportType)
    (pid : Option Nat) (createdAt : Nat)
    (handshake : HandshakeOutcome) (discovery : DiscoveryOutcome)
    (hfresh : sessionsGet sessions sessionId = none)
    (hfail : (∃ m, handshake = .fail m) ∨ (handshake = .ok ∧ ∃ m, discovery = .fail m)) :
    (connectWithTransport sessions sessionId serverUrl tt pid createdAt handshake discovery).2.1
      = sessions ∧
    sessionsGet
      (connectWithTransport sessions sessionId serverUrl tt pid createdAt handshake discovery).2.1
      sessionId = none ∧
    ∃ e : McpError,
      (connectWithTransport sessions sessionId serverUrl tt pid createdAt handshake discovery).2.2
        = .error e ∧
      (e.code = "CONNECTION_FAILED" ∨ e.code = "TOOL_DISCOVERY_FAILED") := by
  have hform := (sessionsGet_eq_none_iff sessions sessionId).mp hfresh
  rcases hfail with ⟨m, hm⟩ | ⟨hok, m, hm⟩
  · subst hm
    have hset1 := sessionsSet_of_fresh sessions
      (⟨sessionId, serverUrl, tt, [], createdAt, .connecting, pid⟩ : ActiveSession)
      (fun t ht => hform t ht)
    have hset2 := sessionsSet_append_of_fresh sessions
      (⟨sessionId, serverUrl, tt, [], createdAt, .connecting, pid⟩ : ActiveSession)
      (⟨sessionId, serverUrl, tt, [], createdAt, .error, pid⟩ : ActiveSession)
      rfl (fun t ht => hform t ht)
    have hdel := sessionsDelete_append_of_fresh sessions
      (⟨sessionId, serverUrl, tt, [], createdAt, .error, pid⟩ : ActiveSession)
      sessionId rfl (fun t ht => hform t ht)
    have hreg :
        (connectWithTransport sessions sessionId serverUrl tt pid createdAt (.fail m) discovery).2.1
          = sessions := by
      simp only [connectWithTransport, hset1, hset2, hdel]
    refine ⟨hreg, by rw [hreg]; exact hfresh, ?_⟩
    exact ⟨_, rfl, Or.inl rfl⟩
  · subst hok hm
    have hset1 := sessionsSet_of_fresh sessions
      (⟨sessionId, serverUrl, tt, [], createdAt, .connecting, pid⟩ : ActiveSession)
      (fun t ht => hform t ht)
    have hset2 := sessionsSet_append_of_fresh sessions
      (⟨sessionId, serverUrl, tt, [], createdAt, .connecting, pid⟩ : ActiveSession)
      (⟨sessionId, serverUrl, tt, [], createdAt, .connected, pid⟩ : ActiveSession)
      rfl (fun t ht => hform t ht)
    have hget2 := sessionsGet_append_of_fresh sessions
      (⟨sessionId, serverUrl, tt, [], createdAt, .connected, pid⟩ : ActiveSession)
      sessionId rfl (fun t ht => hform t ht)
    have hset3 := sessionsSet_append_of_fresh sessions
      (⟨sessionId, serverUrl, tt, [], createdAt, .connected, pid⟩ : ActiveSession)
      (⟨sessionId, serverUrl, tt, [], createdAt, .error, pid⟩ : ActiveSession)
      rfl (fun t ht => hform t ht)
    have hdel := sessionsDelete_append_of_fresh sessions
      (⟨sessionId, serverUrl, tt, [], createdAt, .error, pid⟩ : ActiveSession)
      sessionId rfl (fun t ht => hform t ht)
    have hreg :
        (connectWithTransport sessions sessionId serverUrl tt pid createdAt .ok (.fail m)).2.1
          = sessions := by
      simp only [connectWithTransport, discoverTools, hset1, hset2, hget2, hset3, hdel]
    refine ⟨hreg, by rw [hreg]; exact hfresh, ?_⟩
    refine ⟨⟨"Failed to list tools: " ++ m, "TOOL_DISCOVERY_FAILED", 500,
      some (.exceptionMessage m)⟩, ?_, Or.inr rfl⟩
    simp only [connectWithTransport, discoverTools, hset1, hset2, hget2]

/-- Witness for C1 at a concrete input: the empty registry, a fresh
session id, and a handshake that is refused. -/
theorem connect_failure_leaves_registry_unchanged_witness :
    (connectWithTransport [] "s1" "http://localhost:3001/sse" .sse none 0
      (.fail "ECONNREFUSED") (.ok [])).2.1 = [] ∧
    ∃ e : McpError,
      (connectWithTransport [] "s1" "http://localhost:3001/sse" .sse none 0
        (.fail "ECONNREFUSED") (.ok [])).2.2 = .error e ∧
      (e.code = "CONNECTION_FAILED" ∨ e.code = "TOOL_DISCOVERY_FAILED") := by
  have h := connect_failure_leaves_registry_unchanged [] "s1" "http://localhost:3001/sse"
    .sse none 0 (.fail "ECONNREFUSED") (.ok []) rfl (Or.inl ⟨"ECONNREFUSED", rfl⟩)
  exact ⟨h.1, h.2.2⟩

/-- Demo tool fixture used by concrete witnesses below. -/
def echoTool : Tool := ⟨"echo", "Echo back the provided message", JsValue.null⟩

/-- Demo tool fixture used by concrete witnesses below. -/
def addTool : Tool := ⟨"add", "Add two numbers", JsValue.null⟩

/-- C8 counterexample: on a successful connect with discovery returning
`[echoTool]`, the registry snapshot taken right after the handshake
shows the session already in the `connected` state with its tool list
still empty — i.e. `connected` is observable with discovery still
pending, contradicting the claimed handshake → discovery → connected
order. -/
theorem connected_observable_before_discovery :
    ∃ snapshot ∈ (connectWithTransport [] "s1" "http://localhost:3001/sse" .sse none 0
        .ok (.ok [echoTool])).1,
      ∃ s ∈ snapshot, s.status = SessionStatus.connected ∧ s.tools = [] := by
  have htr : (connectWithTransport [] "s1" "http://localhost:3001/sse" .sse none 0
      .ok (.ok [echoTool])).1 =
      [[⟨"s1", "http://localhost:3001/sse", .sse, [], 0, .connecting, none⟩],
       [⟨"s1", "http://localhost:3001/sse", .sse, [], 0, .connected, none⟩],
       [⟨"s1", "http://localhost:3001/sse", .sse, [echoTool], 0, .connected, none⟩]] := rfl
  rw [htr]
  exact ⟨[⟨"s1", "http://localhost:3001/sse", .sse, [], 0, .connected, none⟩],
    by simp,
    ⟨"s1", "http://localhost:3001/sse", .sse, [], 0, .connected, none⟩,
    by simp, rfl, rfl⟩

/-- C8 (amended): during a successful open the order of steps is
handshake, then marking the session `connected`, then `discoverTools`
storing its result — so between handshake and discovery the session is
briefly observable in the `connected` state with an empty tool list;
the final registry row is `connected` and carries the discovered
tools. -/
theorem connect_marks_connected_before_discovery
    (sessions : Registry) (sessionId serverUrl : String) (tt : TransportType)
    (pid : Option Nat) (createdAt : Nat) (tools : List Tool)
    (hfresh : sessionsGet sessions sessionId = none) :
    connectWithTransport sessions sessionId serverUrl tt pid createdAt .ok (.ok tools) =
      ([sessions ++ [⟨sessionId, serverUrl, tt, [], createdAt, .connecting, pid⟩],
        sessions ++ [⟨sessionId, serverUrl, tt, [], createdAt, .connected, pid⟩],
        sessions ++ [⟨sessionId, serverUrl, tt, tools, createdAt, .connected, pid⟩]],
       sessions ++ [⟨sessionId, serverUrl, tt, tools, createdAt, .connected, pid⟩],
       .ok (sessionId, tools)) := by
  have hform := (sessionsGet_eq_none_iff sessions sessionId).mp hfresh
  have hset1 := sessionsSet_of_fresh sessions
    (⟨sessionId, serverUrl, tt, [], createdAt, .connecting, pid⟩ : ActiveSession)
    (fun t ht => hform t ht)
  have hset2 := sessionsSet_append_of_fresh sessions
    (⟨sessionId, serverUrl, tt, [], createdAt, .connecting, pid⟩ : ActiveSession)
    (⟨sessionId, serverUrl, tt, [], createdAt, .connected, pid⟩ : ActiveSession)
    rfl (fun t ht => hform t ht)
  have hget2 := sessionsGet_append_of_fresh sessions
    (⟨sessionId, serverUrl, tt, [], createdAt, .connected, pid⟩ : ActiveSession)
    sessionId rfl (fun t ht => hform t ht)
  have hset3 := sessionsSet_append_of_fresh sessions
    (⟨sessionId, serverUrl, tt, [], createdAt, .connected, pid⟩ : ActiveSession)
    (⟨sessionId, serverUrl, tt, tools, createdAt, .connected, pid⟩ : ActiveSession)
    rfl (fun t ht => hform t ht)
  simp only [connectWithTransport, discoverTools, hset1, hset2, hget2, hset3]

/-- Witness for C8\x27s amended theorem at a concrete input. -/
theorem connect_marks_connected_before_discovery_witness :
    connectWithTransport [] "s1" "http://localhost:3001/sse" .sse none 0 .ok
        (.ok [echoTool]) =
      ([[⟨"s1", "http://localhost:3001/sse", .sse, [], 0, .connecting, none⟩],
        [⟨"s1", "http://localhost:3001/sse", .sse, [], 0, .connected, none⟩],
        [⟨"s1", "http://localhost:3001/sse", .sse, [echoTool], 0, .connected, none⟩]],
       [⟨"s1", "http://localhost:3001/sse", .sse, [echoTool], 0, .connected, none⟩],
       .ok ("s1", [echoTool])) :=
  connect_marks_connected_before_discovery [] "s1" "http://localhost:3001/sse" .sse none 0
    [echoTool] rfl

/-- C3 counterexample: calling `disconnect` on a session id that is not
in the registry does raise — it returns the typed `SESSION_NOT_FOUND`
error instead of being a no-op. -/
theorem disconnect_unknown_session_raises :
    disconnect [] "deadbeef" true = ([], .error (sessionNotFoundError "deadbeef")) := rfl

theorem sessionsGet_some_id (r : Registry) (sid : String) (s : ActiveSession)
    (h : sessionsGet r sid = some s) : s.sessionId = sid := by
  induction r with
  | nil => simp [sessionsGet] at h
  | cons t rest ih =>
      simp only [sessionsGet] at h
      by_cases ht : t.sessionId = sid
      · rw [if_pos ht] at h
        cases h
        exact ht
      · rw [if_neg ht] at h
        exact ih h

theorem sessionsSet_map_sessionId_of_mem (r : Registry) (s2 : ActiveSession)
    (h : ∃ s, sessionsGet r s2.sessionId = some s) :
    (sessionsSet r s2).map ActiveSession.sessionId = r.map ActiveSession.sessionId := by
  induction r with
  | nil => rcases h with ⟨s, hs⟩; simp [sessionsGet] at hs
  | cons t rest ih =>
      simp only [sessionsSet]
      by_cases ht : t.sessionId = s2.sessionId
      · simp [ht]
      · rcases h with ⟨s, hs⟩
        simp only [sessionsGet, if_neg ht] at hs
        rw [if_neg ht]
        simp [ih ⟨s, hs⟩]

theorem sessionsGet_delete_of_nodup (r : Registry) (sid : String)
    (h : (r.map ActiveSession.sessionId).Nodup) :
    sessionsGet (sessionsDelete r sid) sid = none := by
  induction r with
  | nil => rfl
  | cons t rest ih =>
      rw [List.map_cons] at h
      have hh := List.nodup_cons.mp h
      simp only [sessionsDelete]
      by_cases ht : t.sessionId = sid
      · rw [if_pos ht]
        apply (sessionsGet_eq_none_iff rest sid).mpr
        intro s hs hcontra
        exact hh.1 (by
          rw [ht, ← hcontra]
          exact List.mem_map_of_mem ActiveSession.sessionId hs)
      · rw [if_neg ht]
        simp only [sessionsGet, if_neg ht]
        exact ih hh.2

theorem sessionsDelete_sessionsSet_same (r : Registry) (sid : String) (s2 : ActiveSession)
    (hid : s2.sessionId = sid) (h : ∃ s, sessionsGet r sid = some s) :
    sessionsDelete (sessionsSet r s2) sid = sessionsDelete r sid := by
  induction r with
  | nil => rcases h with ⟨s, hs⟩; simp [sessionsGet] at hs
  | cons t rest ih =>
      by_cases ht : t.sessionId = sid
      · have hset : sessionsSet (t :: rest) s2 = s2 :: rest := by
          simp only [sessionsSet]
          rw [if_pos (by rw [ht, hid])]
        rw [hset]
        simp only [sessionsDelete]
        rw [if_pos hid, if_pos ht]
      · have hset : sessionsSet (t :: rest) s2 = t :: sessionsSet rest s2 := by
          simp only [sessionsSet]
          rw [if_neg (by rw [hid]; exact ht)]
        rw [hset]
        simp only [sessionsDelete]
        rw [if_neg ht, if_neg ht]
        rcases h with ⟨s, hs⟩
        simp only [sessionsGet, if_neg ht] at hs
        rw [ih ⟨s, hs⟩]

theorem sessionsGet_delete_ne (r : Registry) (sid sid2 : String) (hne : sid2 ≠ sid) :
    sessionsGet (sessionsDelete r sid) sid2 = sessionsGet r sid2 := by
  induction r with
  | nil => rfl
  | cons t rest ih =>
      simp only [sessionsDelete]
      by_cases ht : t.sessionId = sid
      · rw [if_pos ht]
        simp only [sessionsGet]
        rw [if_neg (fun h2 => hne (h2.symm.trans ht))]
      · rw [if_neg ht]
        simp only [sessionsGet]
        by_cases h2 : t.sessionId = sid2
        · rw [if_pos h2, if_pos h2]
        · rw [if_neg h2, if_neg h2]
          exact ih

/-- C3 (amended): when the session id is present, `disconnect` returns
success and removes exactly that row — whether or not the underlying
transport close succeeds — leaving the rest of the registry unchanged
(the resulting registry is the original with just that row deleted, and
every other id looks up to the same session as before); but
`disconnect` is not the claimed no-op on missing ids: on an unknown
session id, and equally on a second call after the row was removed, it
raises the typed `SESSION_NOT_FOUND` error while leaving the registry
unchanged. -/
theorem disconnect_removes_row_second_call_raises
    (sessions : Registry) (sessionId : String) (c1 c2 : Bool)
    (hnodup : (sessions.map ActiveSession.sessionId).Nodup) :
    (sessionsGet sessions sessionId = none →
      disconnect sessions sessionId c1 = (sessions, .error (sessionNotFoundError sessionId))) ∧
    (∀ s, sessionsGet sessions sessionId = some s →
      (disconnect sessions sessionId c1).2 = .ok () ∧
      (disconnect sessions sessionId c1).1 = sessionsDelete sessions sessionId ∧
      sessionsGet (disconnect sessions sessionId c1).1 sessionId = none ∧
      (∀ sid2, sid2 ≠ sessionId →
        sessionsGet (disconnect sessions sessionId c1).1 sid2 = sessionsGet sessions sid2) ∧
      disconnect (disconnect sessions sessionId c1).1 sessionId c2 =
        ((disconnect sessions sessionId c1).1, .error (sessionNotFoundError sessionId))) := by
  constructor
  · intro hnone
    simp [disconnect, hnone]
  · intro s hs
    have hsid : s.sessionId = sessionId := sessionsGet_some_id sessions sessionId s hs
    have hres : disconnect sessions sessionId c1 =
        (sessionsDelete
          (if c1 then sessionsSet sessions { s with status := .disconnected } else sessions)
          sessionId, .ok ()) := by
      simp [disconnect, hs]
    have hdel : (disconnect sessions sessionId c1).1 = sessionsDelete sessions sessionId := by
      rw [hres]
      cases c1 with
      | true =>
          rw [if_pos rfl]
          exact sessionsDelete_sessionsSet_same sessions sessionId _ hsid ⟨s, hs⟩
      | false => simp
    have hgone : sessionsGet (disconnect sessions sessionId c1).1 sessionId = none := by
      rw [hdel]
      exact sessionsGet_delete_of_nodup sessions sessionId hnodup
    have hsecond : ∀ r : Registry, sessionsGet r sessionId = none →
        disconnect r sessionId c2 = (r, .error (sessionNotFoundError sessionId)) := by
      intro r hr
      simp [disconnect, hr]
    refine ⟨by rw [hres], hdel, hgone, ?_, hsecond _ hgone⟩
    intro sid2 hne
    rw [hdel]
    exact sessionsGet_delete_ne sessions sessionId sid2 hne

/-- Demo session fixture used by concrete witnesses below. -/
def demoSession : ActiveSession :=
  ⟨"s1", "http://localhost:3001/sse", .sse, [echoTool, addTool], 0, .connected, none⟩

/-- Demo second session fixture for the disconnect witness. -/
def otherSession : ActiveSession :=
  ⟨"s2", "http://other.example/sse", .sse, [addTool], 5, .connected, none⟩

/-- Witness for C3\x27s amended theorem at a concrete input: a
two-session registry; disconnecting `s1` removes only that row and
leaves `s2` untouched, and a second disconnect of `s1` raises. -/
theorem disconnect_removes_row_second_call_raises_witness :
    (disconnect [demoSession, otherSession] "s1" true).2 = .ok () ∧
    (disconnect [demoSession, otherSession] "s1" true).1 = [otherSession] ∧
    sessionsGet (disconnect [demoSession, otherSession] "s1" true).1 "s1" = none ∧
    sessionsGet (disconnect [demoSession, otherSession] "s1" true).1 "s2" =
      some otherSession ∧
    disconnect (disconnect [demoSession, otherSession] "s1" true).1 "s1" true =
      ((disconnect [demoSession, otherSession] "s1" true).1,
       .error (sessionNotFoundError "s1")) := by
  have h := (disconnect_removes_row_second_call_raises [demoSession, otherSession] "s1"
    true true (by simp [demoSession, otherSession])).2 demoSession rfl
  refine ⟨h.1, h.2.1.trans (by rfl), h.2.2.1, ?_, h.2.2.2.2⟩
  rw [h.2.2.2.1 "s2" (by simp)]
  rfl

theorem mem_names_dedupToolsByName (l : List AggregatedTool) (seen : List String) (n : String) :
    n ∈ (dedupToolsByName seen l).map (fun t => t.tool.name) ↔
      n ∈ l.map (fun t => t.tool.name) ∧ n ∉ seen := by
  induction l generalizing seen with
  | nil => simp [dedupToolsByName]
  | cons t ts ih =>
      simp only [dedupToolsByName]
      by_cases hseen : t.tool.name ∈ seen
      · rw [if_pos hseen, ih seen]
        simp only [List.map_cons, List.mem_cons]
        by_cases hn : n = t.tool.name
        · subst hn
          tauto
        · tauto
      · rw [if_neg hseen]
        simp only [List.map_cons, List.mem_cons, ih (t.tool.name :: seen), not_or]
        by_cases hn : n = t.tool.name
        · subst hn
          tauto
        · tauto

theorem nodup_names_dedupToolsByName (l : List AggregatedTool) (seen : List String) :
    ((dedupToolsByName seen l).map (fun t => t.tool.name)).Nodup := by
  induction l generalizing seen with
  | nil => simp [dedupToolsByName]
  | cons t ts ih =>
      simp only [dedupToolsByName]
      by_cases hseen : t.tool.name ∈ seen
      · rw [if_pos hseen]
        exact ih seen
      · rw [if_neg hseen]
        simp only [List.map_cons]
        refine List.nodup_cons.mpr ⟨?_, ih (t.tool.name :: seen)⟩
        intro hc
        exact ((mem_names_dedupToolsByName ts (t.tool.name :: seen) t.tool.name).mp hc).2
          (List.mem_cons_self _ _)

theorem find?_dedupToolsByName (l : List AggregatedTool) (seen : List String) (n : String)
    (hout : n ∉ seen) :
    (dedupToolsByName seen l).find? (fun t => t.tool.name == n) =
      l.find? (fun t => t.tool.name == n) := by
  induction l generalizing seen with
  | nil => rfl
  | cons t ts ih =>
      simp only [dedupToolsByName]
      by_cases hseen : t.tool.name ∈ seen
      · rw [if_pos hseen]
        have hne : (t.tool.name == n) = false := by
          apply beq_false_of_ne
          intro hc
          exact hout (hc ▸ hseen)
        rw [List.find?_cons_of_neg _ (by simp [hne])]
        exact ih seen hout
      · rw [if_neg hseen]
        by_cases hn : t.tool.name = n
        · rw [List.find?_cons_of_pos _ (by simp [hn]),
            List.find?_cons_of_pos _ (by simp [hn])]
        · rw [List.find?_cons_of_neg _ (by simp [hn]),
            List.find?_cons_of_neg _ (by simp [hn])]
          refine ih (t.tool.name :: seen) ?_
          simp only [List.mem_cons, not_or]
          exact ⟨fun h => hn h.symm, hout⟩

theorem mem_names_getAllTools (sessions : Registry) (n : String) :
    n ∈ (getAllTools sessions).map (fun t => t.tool.name) ↔
      ∃ s ∈ sessions, s.status = SessionStatus.connected ∧ ∃ t ∈ s.tools, t.name = n := by
  induction sessions with
  | nil => simp [getAllTools]
  | cons s rest ih =>
      simp only [getAllTools, List.map_append, List.mem_append, ih]
      by_cases hs : s.status = SessionStatus.connected
      · simp only [if_pos hs, List.map_map, List.mem_map]
        constructor
        · rintro (⟨t, ht, rfl⟩ | ⟨u, hu, hc, t, ht, rfl⟩)
          · exact ⟨s, List.mem_cons_self _ _, hs, t, ht, rfl⟩
          · exact ⟨u, List.mem_cons_of_mem _ hu, hc, t, ht, rfl⟩
        · rintro ⟨u, hu, hc, t, ht, rfl⟩
          rcases List.mem_cons.mp hu with rfl | hu2
          · exact Or.inl ⟨t, ht, rfl⟩
          · exact Or.inr ⟨u, hu2, hc, t, ht, rfl⟩
      · simp only [if_neg hs, List.map_nil, List.not_mem_nil, false_or]
        constructor
        · rintro ⟨u, hu, hc, t, ht, rfl⟩
          exact ⟨u, List.mem_cons_of_mem _ hu, hc, t, ht, rfl⟩
        · rintro ⟨u, hu, hc, t, ht, rfl⟩
          rcases List.mem_cons.mp hu with rfl | hu2
          · exact absurd hc hs
          · exact ⟨u, hu2, hc, t, ht, rfl⟩

theorem find?_map_llm (l : List AggregatedTool) (n : String) :
    (l.map (fun t => (⟨t.tool, t.transportType⟩ : LlmTool))).find?
        (fun t => t.tool.name == n) =
      (l.find? (fun t => t.tool.name == n)).map
        (fun t => (⟨t.tool, t.transportType⟩ : LlmTool)) := by
  induction l with
  | nil => rfl
  | cons t ts ih =>
      by_cases hn : t.tool.name = n
      · rw [List.map_cons, List.find?_cons_of_pos _ (by simp [hn]),
          List.find?_cons_of_pos _ (by simp [hn])]
        rfl
      · rw [List.map_cons, List.find?_cons_of_neg _ (by simp [hn]),
          List.find?_cons_of_neg _ (by simp [hn])]
        exact ih

/-- C4: the LLM-facing deduplicated tool list has pairwise-distinct
names; a name appears in it exactly when some connected session exposes
it; the entry kept for a name is the first occurrence of that name in
session-iteration order (later duplicates are dropped, not merged); and
every name exposed by a connected session appears exactly once. -/
theorem aggregate_dedup_first_wins (sessions : Registry) :
    ((toolsForLlm sessions).map (fun t => t.tool.name)).Nodup ∧
    (∀ n, n ∈ (toolsForLlm sessions).map (fun t => t.tool.name) ↔
      ∃ s ∈ sessions, s.status = SessionStatus.connected ∧ ∃ t ∈ s.tools, t.name = n) ∧
    (∀ n, (toolsForLlm sessions).find? (fun t => t.tool.name == n) =
      ((getAllTools sessions).find? (fun t => t.tool.name == n)).map
        (fun t => (⟨t.tool, t.transportType⟩ : LlmTool))) ∧
    (∀ n, (∃ s ∈ sessions, s.status = SessionStatus.connected ∧ ∃ t ∈ s.tools, t.name = n) →
      ((toolsForLlm sessions).map (fun t => t.tool.name)).count n = 1) := by
  have hnames : ∀ n, n ∈ (toolsForLlm sessions).map (fun t => t.tool.name) ↔
      n ∈ (dedupToolsByName [] (getAllTools sessions)).map (fun t => t.tool.name) := by
    intro n
    simp [toolsForLlm, List.map_map, Function.comp]
  have hnodup : ((toolsForLlm sessions).map (fun t => t.tool.name)).Nodup := by
    have := nodup_names_dedupToolsByName (getAllTools sessions) []
    simpa [toolsForLlm, List.map_map, Function.comp] using this
  have hmem : ∀ n, n ∈ (toolsForLlm sessions).map (fun t => t.tool.name) ↔
      ∃ s ∈ sessions, s.status = SessionStatus.connected ∧ ∃ t ∈ s.tools, t.name = n := by
    intro n
    rw [hnames n, mem_names_dedupToolsByName, mem_names_getAllTools]
    simp
  refine ⟨hnodup, hmem, ?_, ?_⟩
  · intro n
    rw [toolsForLlm, find?_map_llm, find?_dedupToolsByName _ [] n (by simp)]
  · intro n hn
    exact List.count_eq_one_of_mem hnodup ((hmem n).mpr hn)

/-- Demo fixtures for the deduplication witness: two connected sessions
that both expose a tool named `echo`. -/
def echoToolB : Tool := ⟨"echo", "Shadowed echo from a second provider", JsValue.null⟩

/-- First connected demo session, exposing `echo`. -/
def sessionA : ActiveSession :=
  ⟨"sA", "http://a.example/sse", .sse, [echoTool], 0, .connected, none⟩

/-- Second connected demo session, exposing its own `echo` plus `add`. -/
def sessionB : ActiveSession :=
  ⟨"sB", "http://b.example/sse", .sse, [echoToolB, addTool], 1, .connected, none⟩

/-- Witness for C4 at a concrete input: with both demo sessions
connected, `echo` appears exactly once in the LLM-facing list and the
kept entry is session A\x27s (the first in iteration order), not
session B\x27s. -/
theorem aggregate_dedup_first_wins_witness :
    ((toolsForLlm [sessionA, sessionB]).map (fun t => t.tool.name)).count "echo" = 1 ∧
    (toolsForLlm [sessionA, sessionB]).find? (fun t => t.tool.name == "echo") =
      some ⟨echoTool, .sse⟩ := by
  have h := aggregate_dedup_first_wins [sessionA, sessionB]
  refine ⟨h.2.2.2 "echo" ⟨sessionA, by simp, rfl, echoTool, by simp [sessionA], rfl⟩, ?_⟩
  rw [h.2.2.1 "echo"]
  rfl

theorem findSessionForTool_eq_none (sessions : Registry) (toolName : String)
    (h : ∀ s ∈ sessions, s.status = SessionStatus.connected → ∀ t ∈ s.tools, t.name ≠ toolName) :
    findSessionForTool sessions toolName = none := by
  induction sessions with
  | nil => rfl
  | cons s rest ih =>
      simp only [findSessionForTool]
      rw [if_neg ?_]
      · exact ih (fun u hu => h u (List.mem_cons_of_mem _ hu))
      · rintro ⟨hc, t, ht, hname⟩
        exact h s (List.mem_cons_self _ _) hc t ht hname

/-- C5: invoking an unknown tool name fails with a not-found error
listing the currently valid names.  Routing variant: when no connected
session exposes the name, `callToolAcrossSessions` fails with
`TOOL_NOT_FOUND` listing the tool names of every connected session.
Session-scoped variant: when the name is not among the session\x27s
cached tools, `callTool` fails with the same not-found shape listing
that session\x27s tool names, and it does so before any provider call —
the outcome is identical for any two provider oracles. -/
theorem invoke_unknown_tool_lists_valid_names
    (sessions : Registry) (toolName : String) (args : JsValue)
    (provider provider2 : String → String → JsValue → ProviderOutcome)
    (sessionId : String) (s : ActiveSession) :
    ((∀ u ∈ sessions, u.status = SessionStatus.connected → ∀ t ∈ u.tools, t.name ≠ toolName) →
      callToolAcrossSessions sessions toolName args provider =
        .error (toolNotFoundAcrossSessionsError toolName sessions) ∧
      (toolNotFoundAcrossSessionsError toolName sessions).code = "TOOL_NOT_FOUND" ∧
      (toolNotFoundAcrossSessionsError toolName sessions).message =
        "Tool \x27" ++ toolName ++ "\x27 not found in any connected session. Available tools: "
          ++ String.intercalate ", " ((getAllTools sessions).map (fun t => t.tool.name))) ∧
    (sessionsGet sessions sessionId = some s → s.status = SessionStatus.connected →
      (∀ t ∈ s.tools, t.name ≠ toolName) →
      callTool sessions sessionId toolName args provider =
        .error (toolNotFoundInSessionError toolName s.tools) ∧
      (toolNotFoundInSessionError toolName s.tools).code = "TOOL_NOT_FOUND" ∧
      (toolNotFoundInSessionError toolName s.tools).message =
        "Tool \x27" ++ toolName ++ "\x27 not found. Available tools: "
          ++ String.intercalate ", " (s.tools.map Tool.name) ∧
      callTool sessions sessionId toolName args provider =
        callTool sessions sessionId toolName args provider2) := by
  constructor
  · intro h
    refine ⟨?_, rfl, rfl⟩
    rw [callToolAcrossSessions, findSessionForTool_eq_none sessions toolName h]
  · intro hs hconn hnone
    have hfind : s.tools.find? (fun t => t.name == toolName) = none := by
      apply List.find?_eq_none.mpr
      intro t ht
      simpa using hnone t ht
    have hcall : ∀ p : String → String → JsValue → ProviderOutcome,
        callTool sessions sessionId toolName args p =
          .error (toolNotFoundInSessionError toolName s.tools) := by
      intro p
      simp [callTool, hs, hconn, hfind]
    exact ⟨hcall provider, rfl, rfl, (hcall provider).trans (hcall provider2).symm⟩

/-- Demo provider oracle that always succeeds. -/
def okProvider : String → String → JsValue → ProviderOutcome :=
  fun _ _ _ => .result (.str "ok") false

/-- Witness for C5 at the spec\x27s concrete scenario: invoking
`frobnicate` on a session whose tools are `echo` and `add` yields a
not-found error whose detail lists `echo, add`; the routing variant on
the same registry lists the same names. -/
theorem invoke_unknown_tool_lists_valid_names_witness :
    callTool [demoSession] "s1" "frobnicate" JsValue.null okProvider =
      .error (toolNotFoundInSessionError "frobnicate" [echoTool, addTool]) ∧
    (toolNotFoundInSessionError "frobnicate" [echoTool, addTool]).message =
      "Tool \x27frobnicate\x27 not found. Available tools: echo, add" ∧
    callToolAcrossSessions [demoSession] "frobnicate" JsValue.null okProvider =
      .error (toolNotFoundAcrossSessionsError "frobnicate" [demoSession]) := by
  have h := invoke_unknown_tool_lists_valid_names [demoSession] "frobnicate" JsValue.null
    okProvider okProvider "s1" demoSession
  have hnone : ∀ t ∈ demoSession.tools, t.name ≠ "frobnicate" := by
    intro t ht
    have heither : t = echoTool ∨ t = addTool := by simpa [demoSession] using ht
    rcases heither with rfl | rfl
    · simp [echoTool]
    · simp [addTool]
  have hall : ∀ u ∈ [demoSession], u.status = SessionStatus.connected →
      ∀ t ∈ u.tools, t.name ≠ "frobnicate" := by
    intro u hu _
    rcases List.mem_singleton.mp hu with rfl
    exact hnone
  have h2 := h.2 rfl rfl hnone
  refine ⟨h2.1, ?_, (h.1 hall).1⟩
  exact h2.2.2.1.trans (by rfl)

/-- C6: tool invocation distinguishes a provider-reported error from a
transport failure.  When the provider completes the call but flags the
result as an error, `callTool` fails with `TOOL_EXECUTION_ERROR`
carrying the provider\x27s payload (`result.content`) as structured
detail; when the call itself could not complete, it fails with
`TOOL_EXECUTION_FAILED` carrying the underlying transport exception as
detail; the two error values are distinct. -/
theorem invocation_failure_two_kinds
    (sessions : Registry) (sessionId toolName : String) (args : JsValue)
    (s : ActiveSession)
    (hs : sessionsGet sessions sessionId = some s)
    (hconn : s.status = SessionStatus.connected)
    (htool : (s.tools.find? (fun t => t.name == toolName)).isSome = true) :
    (∀ (provider : String → String → JsValue → ProviderOutcome) (content : JsValue),
      provider sessionId toolName args = ProviderOutcome.result content true →
      callTool sessions sessionId toolName args provider =
        .error ⟨"Tool execution returned an error", "TOOL_EXECUTION_ERROR", 400,
                some (.providerContent content)⟩) ∧
    (∀ (provider : String → String → JsValue → ProviderOutcome) (msg : String),
      provider sessionId toolName args = ProviderOutcome.transportFail msg →
      callTool sessions sessionId toolName args provider =
        .error ⟨"Failed to execute tool \x27" ++ toolName ++ "\x27: " ++ msg,
                "TOOL_EXECUTION_FAILED", 500, some (.exceptionMessage msg)⟩) ∧
    (∀ (content : JsValue) (msg : String),
      (⟨"Tool execution returned an error", "TOOL_EXECUTION_ERROR", 400,
        some (.providerContent content)⟩ : McpError) ≠
      ⟨"Failed to execute tool \x27" ++ toolName ++ "\x27: " ++ msg,
        "TOOL_EXECUTION_FAILED", 500, some (.exceptionMessage msg)⟩) := by
  obtain ⟨t, ht⟩ := Option.isSome_iff_exists.mp htool
  refine ⟨?_, ?_, ?_⟩
  · intro provider content hp
    simp [callTool, hs, hconn, ht, hp]
  · intro provider msg hp
    simp [callTool, hs, hconn, ht, hp]
  · intro content msg heq
    have hcode := congrArg McpError.code heq
    simp at hcode

/-- Demo provider oracle whose result is flagged as an error by the
provider itself. -/
def errProvider : String → String → JsValue → ProviderOutcome :=
  fun _ _ _ => .result (.str "boom") true

/-- Demo provider oracle whose call fails at the transport level. -/
def failProvider : String → String → JsValue → ProviderOutcome :=
  fun _ _ _ => .transportFail "socket hang up"

/-- Witness for C6 at a concrete input: the same `echo` invocation
under a provider-reported error and under a transport failure yields
the two distinct typed errors with their respective details. -/
theorem invocation_failure_two_kinds_witness :
    callTool [demoSession] "s1" "echo" JsValue.null errProvider =
      .error ⟨"Tool execution returned an error", "TOOL_EXECUTION_ERROR", 400,
              some (.providerContent (.str "boom"))⟩ ∧
    callTool [demoSession] "s1" "echo" JsValue.null failProvider =
      .error ⟨"Failed to execute tool \x27echo\x27: socket hang up",
              "TOOL_EXECUTION_FAILED", 500, some (.exceptionMessage "socket hang up")⟩ := by
  have h := invocation_failure_two_kinds [demoSession] "s1" "echo" JsValue.null
    demoSession rfl rfl (by rfl)
  exact ⟨h.1 errProvider (.str "boom") rfl, h.2.1 failProvider "socket hang up" rfl⟩

/-- C7: within one batch of requested tool calls, each call is
attempted independently.  The outcome list is keyed one-to-one by the
calls\x27 ids in order; a call whose execution fails is recorded as an
error result (its message, flagged `isError`) under its own id; a call
whose execution succeeds is recorded with its content; and the outcome
recorded at a position depends only on the executor\x27s behaviour on
that position\x27s call — changing how any sibling call behaves (for
example making the second of three fail) cannot change it.  Combined
with the loop shape of `chatLoop`, the whole outcome list — successes
and errors alike — is what the follow-up Completion Service round
receives. -/
theorem batch_calls_independent
    (exec exec2 : ToolCall → Except McpError JsValue) (calls : List ToolCall) :
    (executeBatch exec calls).map (fun r => r.toolUseId) =
      calls.map (fun tc => tc.toolUseId) ∧
    (∀ (i : Nat) (e : McpError) (tc : ToolCall), calls[i]? = some tc → exec tc = .error e →
      (executeBatch exec calls)[i]? =
        some (⟨tc.toolUseId, .str e.message, true⟩ : LlmToolResult)) ∧
    (∀ (i : Nat) (v : JsValue) (tc : ToolCall), calls[i]? = some tc → exec tc = .ok v →
      (executeBatch exec calls)[i]? = some (⟨tc.toolUseId, v, false⟩ : LlmToolResult)) ∧
    (∀ (i : Nat) (tc : ToolCall), calls[i]? = some tc → exec2 tc = exec tc →
      (executeBatch exec2 calls)[i]? = (executeBatch exec calls)[i]?) := by
  refine ⟨?_, ?_, ?_, ?_⟩
  · simp only [executeBatch, List.map_map]
    apply List.map_congr_left
    intro tc _
    cases hexec : exec tc <;> simp [hexec]
  · intro i e tc hget hexec
    simp [executeBatch, List.getElem?_map, hget, hexec]
  · intro i v tc hget hexec
    simp [executeBatch, List.getElem?_map, hget, hexec]
  · intro i tc hget hsame
    simp [executeBatch, List.getElem?_map, hget, hsame]

/-- Demo batch fixtures: three requested calls, of which the second
targets an unknown tool. -/
def callOne : ToolCall := ⟨"tc1", "echo", JsValue.null⟩

/-- Second demo call of the batch, the failing one. -/
def callTwo : ToolCall := ⟨"tc2", "frobnicate", JsValue.null⟩

/-- Third demo call of the batch. -/
def callThree : ToolCall := ⟨"tc3", "add", JsValue.null⟩

/-- Demo executor: every call succeeds except the `tc2` call, which
fails with a transport-style error. -/
def demoExec : ToolCall → Except McpError JsValue := fun tc =>
  if tc.toolUseId = "tc2" then
    .error ⟨"boom", "TOOL_EXECUTION_FAILED", 500, none⟩
  else .ok (.str "ok")

/-- Witness for C7 at the spec\x27s concrete scenario: a batch of three
calls whose second fails — the ids of all three outcomes are present in
order, the second outcome is the keyed error, and the third call was
still attempted and recorded as a success. -/
theorem batch_calls_independent_witness :
    (executeBatch demoExec [callOne, callTwo, callThree]).map (fun r => r.toolUseId) =
      ["tc1", "tc2", "tc3"] ∧
    (executeBatch demoExec [callOne, callTwo, callThree])[1]? =
      some ⟨"tc2", .str "boom", true⟩ ∧
    (executeBatch demoExec [callOne, callTwo, callThree])[2]? =
      some ⟨"tc3", .str "ok", false⟩ := by
  have h := batch_calls_independent demoExec demoExec [callOne, callTwo, callThree]
  refine ⟨h.1.trans (by rfl), ?_, ?_⟩
  · exact h.2.1 1 ⟨"boom", "TOOL_EXECUTION_FAILED", 500, none⟩ callTwo rfl rfl
  · exact h.2.2.1 2 (.str "ok") callThree rfl rfl

theorem chatLoop_iterations_le (cont : List ToolCall → List LlmToolResult → LlmResponse)
    (exec : ToolCall → Except McpError JsValue) :
    ∀ (fuel : Nat) (resp : LlmResponse) (accC : List ToolCall) (accR : List LlmToolResult)
      (iters : Nat),
      (chatLoop cont exec resp accC accR iters fuel).2 ≤ iters + fuel := by
  intro fuel
  induction fuel with
  | zero =>
      intro resp accC accR iters
      simp [chatLoop]
  | succ f ih =>
      intro resp accC accR iters
      simp only [chatLoop]
      by_cases h : resp.toolCalls.isEmpty
      · rw [if_pos h]
        omega
      · rw [if_neg h]
        have := ih (cont (accC ++ resp.toolCalls) (accR ++ executeBatch exec resp.toolCalls))
          (accC ++ resp.toolCalls) (accR ++ executeBatch exec resp.toolCalls) (iters + 1)
        omega

theorem chatLoop_iterations_eq (cont : List ToolCall → List LlmToolResult → LlmResponse)
    (exec : ToolCall → Except McpError JsValue)
    (hcont : ∀ cs rs, (cont cs rs).toolCalls ≠ []) :
    ∀ (fuel : Nat) (resp : LlmResponse) (accC : List ToolCall) (accR : List LlmToolResult)
      (iters : Nat), resp.toolCalls ≠ [] →
      (chatLoop cont exec resp accC accR iters fuel).2 = iters + fuel := by
  intro fuel
  induction fuel with
  | zero =>
      intro resp accC accR iters _
      simp [chatLoop]
  | succ f ih =>
      intro resp accC accR iters hne
      have hempty : resp.toolCalls.isEmpty = false := by
        rw [List.isEmpty_eq_false]
        exact hne
      simp only [chatLoop, hempty, Bool.false_eq_true, if_false]
      have := ih (cont (accC ++ resp.toolCalls) (accR ++ executeBatch exec resp.toolCalls))
        (accC ++ resp.toolCalls) (accR ++ executeBatch exec resp.toolCalls) (iters + 1)
        (hcont _ _)
      omega

theorem chatLoop_last_reply (cont : List ToolCall → List LlmToolResult → LlmResponse)
    (exec : ToolCall → Except McpError JsValue)
    (hcont : ∀ cs rs, (cont cs rs).toolCalls ≠ []) :
    ∀ (fuel : Nat) (resp : LlmResponse) (accC : List ToolCall) (accR : List LlmToolResult)
      (iters : Nat), resp.toolCalls ≠ [] → 1 ≤ fuel →
      ∃ cs rs, (chatLoop cont exec resp accC accR iters fuel).1 = cont cs rs := by
  intro fuel
  induction fuel with
  | zero =>
      intro resp accC accR iters _ hf
      omega
  | succ f ih =>
      intro resp accC accR iters hne _
      have hempty : resp.toolCalls.isEmpty = false := by
        rw [List.isEmpty_eq_false]
        exact hne
      simp only [chatLoop, hempty, Bool.false_eq_true, if_false]
      cases f with
      | zero =>
          exact ⟨accC ++ resp.toolCalls, accR ++ executeBatch exec resp.toolCalls, rfl⟩
      | succ f2 =>
          exact ih (cont (accC ++ resp.toolCalls) (accR ++ executeBatch exec resp.toolCalls))
            (accC ++ resp.toolCalls) (accR ++ executeBatch exec resp.toolCalls) (iters + 1)
            (hcont _ _) (by omega)

/-- C2: the aggregated-chat agentic loop performs at most
`MAX_TOOL_ITERATIONS = 10` Ask/Execute iterations for every Completion
Service behaviour, and against a Completion Service that requests at
least one more tool call on every reply (with an initial reply that
already requests one) it performs exactly the ceiling and then stops
issuing tool calls, returning the last reply obtained from the
Completion Service instead of looping forever. -/
theorem chatAggregated_iteration_ceiling
    (cont : List ToolCall → List LlmToolResult → LlmResponse)
    (exec : ToolCall → Except McpError JsValue) (initial : LlmResponse) :
    (chatAggregated cont exec initial).2 ≤ MAX_TOOL_ITERATIONS ∧
    ((∀ cs rs, (cont cs rs).toolCalls ≠ []) → initial.toolCalls ≠ [] →
      (chatAggregated cont exec initial).2 = MAX_TOOL_ITERATIONS ∧
      ∃ cs rs, (chatAggregated cont exec initial).1 = cont cs rs) := by
  constructor
  · have h := chatLoop_iterations_le cont exec MAX_TOOL_ITERATIONS initial [] [] 0
    simpa [chatAggregated] using h
  · intro hcont hinit
    constructor
    · have h := chatLoop_iterations_eq cont exec hcont MAX_TOOL_ITERATIONS initial [] [] 0 hinit
      simpa [chatAggregated] using h
    · exact chatLoop_last_reply cont exec hcont MAX_TOOL_ITERATIONS initial [] [] 0 hinit
        (by norm_num [MAX_TOOL_ITERATIONS])

/-- Demo Completion Service stub that requests one more tool call on
every reply. -/
def demoCont : List ToolCall → List LlmToolResult → LlmResponse :=
  fun _ _ => ⟨"calling one more tool", [callOne]⟩

/-- Demo initial Completion Service reply that already requests a tool
call. -/
def demoInitial : LlmResponse := ⟨"starting tool use", [callOne]⟩

/-- Witness for C2 at a concrete input: against the always-requesting
stub the loop stops after exactly the ceiling of 10 iterations. -/
theorem chatAggregated_iteration_ceiling_witness :
    (chatAggregated demoCont demoExec demoInitial).2 ≤ MAX_TOOL_ITERATIONS ∧
    (chatAggregated demoCont demoExec demoInitial).2 = MAX_TOOL_ITERATIONS := by
  have h := chatAggregated_iteration_ceiling demoCont demoExec demoInitial
  exact ⟨h.1, (h.2 (fun cs rs => by simp [demoCont]) (by simp [demoInitial])).1⟩

theorem formatToolResultItem_eq_spec (item : JsValue) :
    formatToolResultItem item =
      (match textFieldOf item with
       | some t => jsToStringElem t
       | none => jsonStringify item) := by
  cases item with
  | obj fields =>
      simp only [formatToolResultItem, textFieldOf]
      cases h : fields.find? (fun kv => kv.1 == "text") <;> simp [h]
  | null => rfl
  | bool b => rfl
  | num n => rfl
  | str s => rfl
  | arr items => rfl

/-- C9: the source normalization `formatToolResult` coincides with the
spec\x27s wording on every value — an array is flattened to
newline-joined text where each element contributes its `text` field
when present (surfaced through the join\x27s element coercion) and its
JSON rendering otherwise, a bare string passes through unchanged, and
any other value is JSON-rendered.  The second conjunct pins the join
coercion at the degenerate block whose `text` field is `null`: the
program flattens it to the empty string. -/
theorem formatToolResult_matches_spec :
    (∀ result : JsValue, formatToolResult result = formatToolResultSpec result) ∧
    formatToolResult (.arr [.obj [("text", .null)]]) = "" := by
  constructor
  · intro result
    cases result with
    | arr items =>
        simp only [formatToolResult, formatToolResultSpec]
        refine congrArg (String.intercalate "\n") ?_
        induction items with
        | nil => rfl
        | cons x xs ih =>
            simp only [List.map_cons, ih]
            rw [formatToolResultItem_eq_spec x]
    | null => rfl
    | bool b => rfl
    | num n => rfl
    | str s => rfl
    | obj fields => rfl
  · rfl

/-- Demo preset flagged for auto-connect. -/
def presetA : McpPreset :=
  ⟨"A", "Preset A", "auto-connect demo preset", .sse "http://a.example/sse", true, []⟩

/-- Demo preset NOT flagged for auto-connect. -/
def presetB : McpPreset :=
  ⟨"B", "Preset B", "manual demo preset", .stdio "node" ["server.js"], false, []⟩

/-- C10 (evidence of the divergence): with presets `A`
(`autoConnect = true`) and `B` (`autoConnect = false`) and every
connect attempt fulfilling, the `connect-all` endpoint embedding
`connectAllPresets` attempts and reports the unflagged preset `B` as
well — it returns the partition `(["A", "B"], [])` over the full
configured preset list — while `autoConnectPresets`, which does filter
to the flagged presets (one success, zero failures here), returns only
counters and no id partition. -/
theorem connectAllPresets_attempts_unflagged :
    connectAllPresets [presetA, presetB] (fun _ => true) = (["A", "B"], []) ∧
    presetB.autoConnect = false ∧
    attemptedPresetIds [presetA, presetB] = ["A", "B"] ∧
    autoConnectPresets true [presetA, presetB] (fun _ => true) = (1, 0) :=
  ⟨rfl, rfl, rfl, rfl⟩
